import Mathlib

/-!
Verification of the patch lifecycle engine of `modern-patch-package`
(`src/utils.ts` and the `ModernPatchPackage` class).

The TypeScript code is shallowly embedded:
* pure string manipulation is translated directly;
* filesystem and subprocess effects (`fs.pathExists`, `glob`, `git`,
  `yarn info`, `npm pack`) are threaded through explicit parameters —
  a directory is a listing (`List String`) or an association list of
  `(path, content)` pairs, and each external command's outcome is a
  parameter of the embedded function;
* JavaScript truthiness of a string (`s ? … : …`) is `s ≠ ""` on a
  present value, and `undefined` is `Option.none`.
-/

namespace MPP

/-- JS `String.prototype.includes` / prefix test, on character lists:
`leadsWith needle hay` is true iff `needle` is a prefix of `hay`. -/
def leadsWith : List Char → List Char → Bool
  | [], _ => true
  | _ :: _, [] => false
  | a :: as, b :: bs => a == b && leadsWith as bs

/-- `hasSub needle hay` is true iff `needle` occurs contiguously in `hay`
(the semantics of JS `hay.includes(needle)`). -/
def hasSub (needle : List Char) : List Char → Bool
  | [] => leadsWith needle []
  | c :: t => leadsWith needle (c :: t) || hasSub needle t

/-- JS `hay.includes(needle)` on strings. -/
def containsStr (hay needle : String) : Bool :=
  hasSub needle.data hay.data

/-- `hasSuffix l suf` is true iff `suf` is a suffix of `l`
(used for the `*.patch` glob filter and the `\.patch$` regex tail). -/
def hasSuffix (l suf : List Char) : Bool :=
  leadsWith suf.reverse l.reverse

/-- JS `n.toString().padStart(3, '0')` for a natural number
(`utils.ts`, `generatePatchFileName`). -/
def pad3 (n : Nat) : String :=
  let s := Nat.repr n
  ⟨List.replicate (3 - s.length) '0' ++ s.data⟩

/-- `generatePatchFileName` (`utils.ts`): builds
`name+version[+NNN[+description]].patch`.  The sequence component is
emitted only when the `sequence` argument is defined; the description is
appended only when a sequence is present and the description is truthy
(defined and non-empty). -/
def generatePatchFileName (packageName packageVersion : String)
    (sequence : Option Nat) (description : Option String) : String :=
  let fileName := packageName ++ "+" ++ packageVersion
  let fileName :=
    match sequence with
    | some s =>
      let fn := fileName ++ "+" ++ pad3 s
      match description with
      | some d => if d ≠ "" then fn ++ "+" ++ d else fn
      | none => fn
    | none => fileName
  fileName ++ ".patch"

/-!
The `listPatches` filename decoder is the JS regular expression

  `^(.+)\+([^+]+)(?:\+(\d+)(?:\+(.+))?)?\.patch$`

hand-compiled to a backtracking matcher.  JS semantics: the literal
`\.patch$` pins the last six characters, and the groups match the
remaining stem with greedy preference — group 1 (`.+`) as long as
possible, then group 2 (`[^+]+`) as long as possible, then the optional
sequence/description part, preferring presence over absence.  (`.` is
modelled as "any character"; patch filenames contain no newline.)
-/

/-- All decompositions `t = g1 ++ '+' :: rest`, in ascending order of
`g1.length`, `g1` possibly empty. -/
def splitsAsc : List Char → List (List Char × List Char)
  | [] => []
  | c :: t =>
    (if c = '+' then [(([] : List Char), t)] else []) ++
      (splitsAsc t).map (fun pr => (c :: pr.1, pr.2))

/-- Candidate matches for group 1 (`(.+)` followed by `+`): nonempty
`g1`, longest first (greedy). -/
def plusSplits (t : List Char) : List (List Char × List Char) :=
  ((splitsAsc t).filter (fun pr => !pr.1.isEmpty)).reverse

/-- Candidate matches for group 2 (`[^+]+`): nonempty plus-free prefixes
of `rest`, longest first (greedy). -/
def group2Splits (rest : List Char) : List (List Char × List Char) :=
  let m := (rest.takeWhile (fun c => c ≠ '+')).length
  ((List.range m).reverse).map (fun j => (rest.take (j + 1), rest.drop (j + 1)))

/-- Matches the optional tail `(?:\+(\d+)(?:\+(.+))?)?` against the
whole remainder `r`, returning the captured (sequence digits,
description) on success.  Presence is preferred over absence and `\d+`
is greedy, per JS backtracking. -/
def seqDescParse (r : List Char) : Option (Option (List Char) × Option (List Char)) :=
  match r with
  | [] => some (none, none)
  | '+' :: r1 =>
    let ds := r1.takeWhile Char.isDigit
    ((List.range ds.length).reverse).findSome? (fun jm =>
      let j := jm + 1
      match r1.drop j with
      | [] => some (some (r1.take j), none)
      | '+' :: g4 => if g4.isEmpty then none else some (some (r1.take j), some g4)
      | _ => none)
  | _ => none

/-- Matches `(.+)\+([^+]+)(?:\+(\d+)(?:\+(.+))?)?` against the whole
stem `t`, with JS greedy preference; returns the four capture groups. -/
def firstPlusParse (t : List Char) :
    Option (List Char × List Char × Option (List Char) × Option (List Char)) :=
  (plusSplits t).findSome? fun pr =>
    (group2Splits pr.2).findSome? fun qr =>
      (seqDescParse qr.2).map fun sd => (pr.1, qr.1, sd.1, sd.2)

/-- JS `parseInt` on the digit capture group. -/
def digitsToNat (ds : List Char) : Nat :=
  ds.foldl (fun a c => 10 * a + (c.toNat - 48)) 0

/-- The fields `listPatches` extracts from a matching filename. -/
structure ParsedPatch where
  packageName : String
  packageVersion : String
  sequence : Option Nat
  description : Option String
  deriving DecidableEq, Repr

/-- Decoding of one patch filename in `listPatches` (`utils.ts`): the
regex match, `sequence: match[3] ? parseInt(match[3]) : undefined`,
`description: match[4]`.  Returns `none` for a filename the regex
rejects (such a file is silently excluded from the catalog). -/
def decodePatchName (fileName : String) : Option ParsedPatch :=
  let cs := fileName.data
  if hasSuffix cs ".patch".data then
    (firstPlusParse (cs.take (cs.length - 6))).map fun m =>
      { packageName := ⟨m.1⟩
        packageVersion := ⟨m.2.1⟩
        sequence := (m.2.2.1).map digitsToNat
        description := (m.2.2.2).map (fun l => (⟨l⟩ : String)) }
  else none

/-!  PatchCatalog: `getPatchFiles` and `listPatches`. -/

/-- `getPatchFiles` (`utils.ts`): `glob(path.join(patchDir, '*.patch'))`.
The directory is modelled as its listing (entry names in the order the
filesystem enumeration yields them); `glob` v10 does **not** sort its
results, so the output order is the enumeration order. -/
def getPatchFiles (listing : List String) : List String :=
  listing.filter (fun f => hasSuffix f.data ".patch".data)

/-- One entry of the `listPatches` catalog (interface `PatchFile` in
`types.ts`).  The listing holds bare filenames, so `path.basename` is
the identity and `path = name`. -/
structure PatchFile where
  name : String
  path : String
  packageName : String
  packageVersion : String
  sequence : Option Nat
  description : Option String
  deriving DecidableEq, Repr

/-- Strict lexicographic comparison of character lists by code point. -/
def charsLt : List Char → List Char → Bool
  | [], [] => false
  | [], _ :: _ => true
  | _ :: _, [] => false
  | a :: as, b :: bs => a.toNat < b.toNat || (a == b && charsLt as bs)

/-- `a.localeCompare(b)`, modelled as code-point lexicographic
three-way comparison (all inputs compared by the claims differ first at
an ASCII letter or digit, where every locale agrees with code-point
order). -/
def localeCompare (a b : String) : Int :=
  if charsLt a.data b.data then -1 else if charsLt b.data a.data then 1 else 0

/-- The `listPatches` sort comparator (`utils.ts`): package name via
`localeCompare`, then `(a.sequence || 0) - (b.sequence || 0)` when the
sequences differ, then version via `localeCompare`. -/
def patchCmp (a b : PatchFile) : Int :=
  if a.packageName ≠ b.packageName then localeCompare a.packageName b.packageName
  else if a.sequence ≠ b.sequence then
    (a.sequence.getD 0 : Int) - (b.sequence.getD 0 : Int)
  else localeCompare a.packageVersion b.packageVersion

/-- `listPatches` (`utils.ts`): decode every `*.patch` filename with the
regex (silently dropping non-matching names) and sort with `patchCmp`.
`Array.prototype.sort` is stable (ES2019), modelled as a stable
insertion sort. -/
def listPatches (listing : List String) : List PatchFile :=
  let patches := (getPatchFiles listing).filterMap fun f =>
    (decodePatchName f).map fun p =>
      { name := f, path := f, packageName := p.packageName,
        packageVersion := p.packageVersion, sequence := p.sequence,
        description := p.description }
  List.insertionSort (fun a b => patchCmp a b ≤ 0) patches

/-!  ApplyEngine: per-artifact classification and the batch loops. -/

/-- The placeholder sentinel test of `applyPatch` / `reversePatch`:
the body contains both `'# Manual patch for'` and
`'# Created by modern-patch-package'`. -/
def isManualPatch (content : String) : Bool :=
  containsStr content "# Manual patch for" &&
    containsStr content "# Created by modern-patch-package"

/-- The structural-diff sentinel test of `applyPatch` (`utils.ts`): the
body contains both `'diff --git a/'` and `'index 0000000..0000000'`. -/
def isCustomPatch (content : String) : Bool :=
  containsStr content "diff --git a/" &&
    containsStr content "index 0000000..0000000"

/-- Terminal states of one `applyPatch` run (`failed` models the thrown
error that the batch loop catches). -/
inductive ApplyOutcome where
  | skippedManual
  | appliedCustom
  | applied
  | appliedWithRejections
  | failed
  deriving DecidableEq, Repr

/-- `applyPatch` (`utils.ts`) on one artifact body and a dependency-tree
state `st` of abstract type `σ`.  The mutating branches are the
parameters: `customApply` is `applyCustomPatch`, `gitApply` and
`gitApplyReject` are the two `git apply` invocations (`none` = the
subprocess failed, `some st2` = success with the mutated tree). -/
def applyPatch {σ : Type} (customApply : String → σ → σ)
    (gitApply gitApplyReject : String → σ → Option σ)
    (content : String) (st : σ) : ApplyOutcome × σ :=
  if isManualPatch content then (.skippedManual, st)
  else if isCustomPatch content then (.appliedCustom, customApply content st)
  else
    match gitApply content st with
    | some st2 => (.applied, st2)
    | none =>
      match gitApplyReject content st with
      | some st2 => (.appliedWithRejections, st2)
      | none => (.failed, st)

/-- The aggregate result type (`PatchResult` in `types.ts`). -/
structure PatchResult where
  success : Bool
  patchesCreated : List String
  patchesApplied : List String
  errors : List String
  deriving DecidableEq, Repr

/-- The body of the `applyPatches` / `reversePatches` loop: each file is
attempted in order; `ok f = true` means the per-file call returned,
`ok f = false` means it threw and the rendered error `errText f` is
collected.  The loop never aborts early. -/
def attemptLoop (ok : String → Bool) (errText : String → String)
    (files : List String) : List String × List String :=
  files.foldl
    (fun acc f =>
      if ok f then (acc.1 ++ [f], acc.2) else (acc.1, acc.2 ++ [errText f]))
    ([], [])

/-- `applyPatches` (`utils.ts`): iterate `getPatchFiles` in enumeration
order, collect per-file successes and errors, and report
`success = (errors.length === 0)`; an empty patch directory succeeds
immediately. -/
def applyPatches (listing : List String) (ok : String → Bool)
    (errText : String → String) : PatchResult :=
  let patchFiles := getPatchFiles listing
  if patchFiles.isEmpty then
    { success := true, patchesCreated := [], patchesApplied := [], errors := [] }
  else
    let r := attemptLoop ok
      (fun f => "Failed to apply patch " ++ f ++ ": " ++ errText f) patchFiles
    { success := r.2.isEmpty, patchesCreated := [], patchesApplied := r.1,
      errors := r.2 }

/-- `reversePatches` (`utils.ts`): identical to `applyPatches` except
that the loop runs over `patchFiles.reverse()`. -/
def reversePatches (listing : List String) (ok : String → Bool)
    (errText : String → String) : PatchResult :=
  let patchFiles := getPatchFiles listing
  if patchFiles.isEmpty then
    { success := true, patchesCreated := [], patchesApplied := [], errors := [] }
  else
    let r := attemptLoop ok
      (fun f => "Failed to reverse patch " ++ f ++ ": " ++ errText f)
      patchFiles.reverse
    { success := r.2.isEmpty, patchesCreated := [], patchesApplied := r.1,
      errors := r.2 }

/-- The order in which the `applyPatches` for-loop attempts artifacts:
exactly `getPatchFiles`'s result, unsorted. -/
def applyAttemptOrder (listing : List String) : List String :=
  getPatchFiles listing

/-- The order in which the `reversePatches` for-loop attempts artifacts:
`patchFiles.reverse()`. -/
def reverseAttemptOrder (listing : List String) : List String :=
  (getPatchFiles listing).reverse

/-!  DiffEngine: the per-file positional hunk of `createPatchFromRegistry`
(`utils.ts`, per-file comparison variant). -/

/-- `lines[i] || ''` (`utils.ts`): line `i` of a split file, a missing
index — and an empty line, which JS `||` treats the same — yielding `""`. -/
def lineAt (ls : List String) (i : Nat) : String :=
  ls.getD i ""

/-- The body of one iteration of the hunk loop: a `-` line when the
lines differ and the baseline line is truthy, a `+` line when they
differ and the modified line is truthy, a context line when equal. -/
def emitAt (b m : String) : List String :=
  if b ≠ m then
    (if b ≠ "" then ["-" ++ b] else []) ++ (if m ≠ "" then ["+" ++ m] else [])
  else [" " ++ b]

/-- The hunk loop `for (let i = 0; i < maxLines; i++) …`, counting down
the remaining iterations `r` from index `i`. -/
def diffLoop (B M : List String) : Nat → Nat → List String
  | 0, _ => []
  | r + 1, i => emitAt (lineAt B i) (lineAt M i) ++ diffLoop B M r (i + 1)

/-- The full hunk body for one differing file: indices `0` to
`max(originalLines.length, modifiedLines.length) - 1`. -/
def hunkLines (B M : List String) : List String :=
  diffLoop B M (max B.length M.length) 0

/-- JS `content.split('\n')` (same corner cases as `String.splitOn`). -/
def splitLines (s : String) : List String :=
  s.splitOn "\n"

/-- The `@@ -1,<baseCount> +1,<modCount> @@` marker plus hunk body
emitted for one differing common file. -/
def fileHunk (oc mc : String) : List String :=
  let B := splitLines oc
  let M := splitLines mc
  ("@@ -1," ++ Nat.repr B.length ++ " +1," ++ Nat.repr M.length ++ " @@")
    :: hunkLines B M

/-- The four synthetic header lines pushed before the file loop. -/
def diffHeader (pkgName : String) : List String :=
  ["diff --git a/" ++ pkgName ++ " b/" ++ pkgName,
   "index 0000000..0000000 100644",
   "--- a/" ++ pkgName,
   "+++ b/" ++ pkgName]

/-- File content lookup in a directory tree, modelled as an association
list of `(relative path, content)` in discovery order. -/
def lookupContent (t : List (String × String)) (f : String) : String :=
  ((t.find? (fun e => e.1 == f)).map (·.2)).getD ""

/-- `commonFiles` (`utils.ts`): files of the original tree also present
in the modified tree, in the original tree's discovery order. -/
def commonFiles (orig modified : List (String × String)) : List String :=
  (orig.map (·.1)).filter (fun f => (modified.map (·.1)).contains f)

/-- The diff step of `createPatchFromRegistry` (`utils.ts`) after a
successful download and extraction: compare each common file, emit a
hunk per differing file, and return the joined patch body — or `none`
(`hasDifferences` stayed false, the function returns `false` and the
caller falls back to the placeholder).  The source's single stateful
loop is expressed as the `differing` test plus the in-order hunk
concatenation. -/
def registryDiff (pkgName : String) (orig modified : List (String × String)) :
    Option String :=
  let common := commonFiles orig modified
  let differing := common.filter
    (fun f => lookupContent orig f ≠ lookupContent modified f)
  let body := common.flatMap (fun f =>
    if lookupContent orig f ≠ lookupContent modified f then
      fileHunk (lookupContent orig f) (lookupContent modified f)
    else [])
  if differing.isEmpty then none
  else some (String.intercalate "\n" (diffHeader pkgName ++ body))

/-!  Creation path: `createPatch` and `createManualPatch`. -/

/-- `PackageInfo` (`types.ts`). -/
structure PackageInfo where
  name : String
  version : String
  path : String
  deriving DecidableEq, Repr

/-- JS `path.basename` for forward-slash paths. -/
def basename (p : String) : String :=
  (p.splitOn "/").getLastD ""

/-- The placeholder body template of `createManualPatch` (`utils.ts`). -/
def placeholderText (packageName version packagePath now : String) : String :=
  "# Manual patch for " ++ packageName ++ "@" ++ version ++
  "\n# Created by modern-patch-package\n# \n" ++
  "# This patch was created manually because:\n" ++
  "# - The package is not tracked in git, or\n" ++
  "# - No changes were detected in git history, or\n" ++
  "# - Git diff failed, or\n" ++
  "# - Could not download original package from registry\n#\n" ++
  "# To apply this patch manually:\n" ++
  "# 1. Navigate to the package directory: " ++ packagePath ++ "\n" ++
  "# 2. Apply the changes manually based on your modifications\n" ++
  "# 3. Test the changes to ensure they work as expected\n#\n" ++
  "# Note: This is a placeholder patch file. You may need to manually apply\n" ++
  "# the changes or use a proper diff tool to create a real patch.\n#\n" ++
  "# Original package location: " ++ packagePath ++ "\n" ++
  "# Patch created at: " ++ now ++ "\n"

/-- The external world of one `createPatch` run: the resolver and
manifest results and the outcome of each subprocess step. -/
structure CreateEnv where
  packagePath : Option String
  packageInfo : Option PackageInfo
  isGitRepo : Bool
  lsFilesOk : Bool
  lsFilesOut : String
  diffOk : Bool
  diffOut : String
  registryPatch : Option String
  now : String

/-- `createManualPatch` (`utils.ts`): re-read the manifest, try the
registry route (`registryPatch` is the body it wrote on success), and
otherwise write the placeholder; returns the `(path, content)` writes. -/
def createManualPatch (env : CreateEnv) (packagePath patchFilePath : String) :
    List (String × String) :=
  match env.packageInfo with
  | some info =>
    match env.registryPatch with
    | some content => [(patchFilePath, content)]
    | none =>
      let version := if info.version ≠ "" then info.version else "unknown"
      [(patchFilePath, placeholderText (basename packagePath) version packagePath env.now)]
  | none =>
    [(patchFilePath, placeholderText (basename packagePath) "unknown" packagePath env.now)]

/-- The sequence argument `this.options.append ? 1 : undefined` of the
`generatePatchFileName` call in `createPatch`. -/
def createSeqArg (append : Option String) : Option Nat :=
  match append with
  | some d => if d ≠ "" then some 1 else none
  | none => none

/-- The patch filename `createPatch` generates:
`generatePatchFileName(info.name, info.version, options.append ? 1 : undefined, options.append)`. -/
def createPatchFileChoice (name version : String) (append : Option String) : String :=
  generatePatchFileName name version (createSeqArg append) append

/-- `createPatch` (`utils.ts`): resolve the package, read its manifest,
pick the filename, then either write the `git diff` output or fall back
to `createManualPatch`.  Returns the `PatchResult` and the list of
`(path, content)` file writes. -/
def createPatch (env : CreateEnv) (patchDir : String) (append : Option String)
    (packageName : String) : PatchResult × List (String × String) :=
  match env.packagePath with
  | none =>
    ({ success := false, patchesCreated := [], patchesApplied := [],
       errors := ["Package " ++ packageName ++ " not found in node_modules"] }, [])
  | some packagePath =>
    match env.packageInfo with
    | none =>
      ({ success := false, patchesCreated := [], patchesApplied := [],
         errors := ["Could not read package.json for " ++ packageName] }, [])
    | some info =>
      let patchFileName := createPatchFileChoice info.name info.version append
      let patchFilePath := patchDir ++ "/" ++ patchFileName
      let ok : PatchResult :=
        { success := true, patchesCreated := [patchFilePath],
          patchesApplied := [], errors := [] }
      if env.isGitRepo then
        if env.lsFilesOk ∧ env.lsFilesOut.trim ≠ "" then
          if env.diffOk ∧ env.diffOut.trim ≠ "" then
            (ok, [(patchFilePath, env.diffOut)])
          else (ok, createManualPatch env packagePath patchFilePath)
        else (ok, createManualPatch env packagePath patchFilePath)
      else (ok, createManualPatch env packagePath patchFilePath)

/-!  PathResolver: `getPackagePath` / `findNodeModulesPath`. -/

/-- The manager kind of `PackageManager.name` (`types.ts`). -/
inductive PMName where
  | npm
  | yarn
  | pnpm
  deriving DecidableEq, Repr

/-- `PackageManager` (`types.ts`). -/
structure PackageManager where
  name : PMName
  version : String
  lockFile : String
  hasLockFile : Bool

/-- The filesystem and subprocess world of one resolution:
`present p` is `fs.pathExists(p)`; `yarnInfo` is the
`yarn info <pkg> --json` step — `none` means the subprocess (or JSON
parse) threw, `some loc` means it succeeded with `info.data.location`
equal to `loc` (`some none`: no location field). -/
structure ResolveFs where
  present : String → Bool
  yarnInfo : Option (Option String)

/-- JS `path.join` on plain segments. -/
def pjoin (a b : String) : String :=
  a ++ "/" ++ b

/-- JS `version.startsWith('1.')`, via the prefix test. -/
def versionIsClassic (version : String) : Bool :=
  leadsWith "1.".data version.data

/-- `findNodeModulesPath` (`utils.ts`), with the manager identity and
filesystem passed explicitly. -/
def findNodeModulesPath (pm : PackageManager) (fs : ResolveFs) (cwd : String) :
    String :=
  if pm.name = .yarn then
    if versionIsClassic pm.version then pjoin cwd "node_modules"
    else
      let possible := [pjoin cwd "node_modules",
                       pjoin (pjoin cwd ".yarn") "cache",
                       pjoin (pjoin cwd ".yarn") "unplugged"]
      match possible.find? (fun p => fs.present p) with
      | some p => p
      | none => pjoin cwd "node_modules"
  else
    let possible := [pjoin cwd "node_modules", pjoin cwd ".pnpm"]
    match possible.find? (fun p => fs.present p) with
    | some p => p
    | none => pjoin cwd "node_modules"

/-- `getPackagePath` (`utils.ts`).  For yarn ≥ 2 (version not starting
`1.`): probe `node_modules`, `.yarn/cache`, `.yarn/unplugged`; then try
`yarn info` — on a truthy location return it, on a parsed result with
no truthy location fall through to `null`, and on a thrown error check
the plain `node_modules` path once more and return it only if it
exists. -/
def getPackagePath (pm : PackageManager) (fs : ResolveFs)
    (cwd packageName : String) : Option String :=
  if pm.name = .yarn then
    if versionIsClassic pm.version then
      let p := pjoin (pjoin cwd "node_modules") packageName
      if fs.present p then some p else none
    else
      let nodeModulesPath := pjoin (pjoin cwd "node_modules") packageName
      if fs.present nodeModulesPath then some nodeModulesPath
      else
        let cachePath := pjoin (pjoin (pjoin cwd ".yarn") "cache") packageName
        if fs.present cachePath then some cachePath
        else
          let unpluggedPath := pjoin (pjoin (pjoin cwd ".yarn") "unplugged") packageName
          if fs.present unpluggedPath then some unpluggedPath
          else
            match fs.yarnInfo with
            | some (some loc) => if loc ≠ "" then some loc else none
            | some none => none
            | none =>
              let fallbackPath := pjoin (pjoin cwd "node_modules") packageName
              if fs.present fallbackPath then some fallbackPath else none
  else
    let nodeModulesPath := findNodeModulesPath pm fs cwd
    let packagePath := pjoin nodeModulesPath packageName
    if fs.present packagePath then some packagePath else none

/-!  Helper lemmas shared by the claim theorems. -/

/-- The batch loop, run from any accumulator, partitions its input into
the in-order successes and the in-order rendered errors. -/
lemma foldl_attempt_characterization (ok : String → Bool) (errText : String → String) :
    ∀ (files : List String) (acc : List String × List String),
      files.foldl
        (fun acc f =>
          if ok f then (acc.1 ++ [f], acc.2) else (acc.1, acc.2 ++ [errText f]))
        acc =
      (acc.1 ++ files.filter ok,
       acc.2 ++ (files.filter (fun f => !ok f)).map errText) := by
  intro files
  induction files with
  | nil => intro acc; simp
  | cons f fs ih =>
    intro acc
    by_cases h : ok f <;> simp [List.foldl_cons, h, ih]

/-- `attemptLoop` in closed form. -/
lemma attemptLoop_eq (ok : String → Bool) (errText : String → String)
    (files : List String) :
    attemptLoop ok errText files =
      (files.filter ok, (files.filter (fun f => !ok f)).map errText) := by
  simpa [attemptLoop] using foldl_attempt_characterization ok errText files ([], [])

/-- A Boolean predicate and its negation partition a list's length. -/
lemma length_filter_partition {α : Type} (p : α → Bool) :
    ∀ l : List α, (l.filter p).length + (l.filter (fun a => !p a)).length = l.length := by
  intro l
  induction l with
  | nil => rfl
  | cons a t ih => by_cases h : p a <;> simp [h] <;> omega

/-- The hunk loop visits the index interval `[i, i + r)` in order. -/
lemma diffLoop_eq (B M : List String) :
    ∀ (r i : Nat), diffLoop B M r i =
      (List.range' i r).flatMap (fun k => emitAt (lineAt B k) (lineAt M k)) := by
  intro r
  induction r with
  | zero => intro i; rfl
  | succ n ih => intro i; rw [List.range'_succ, List.flatMap_cons, diffLoop, ih]

/-- The full hunk is the concatenation of the per-index emissions for
indices `0` to `max − 1`. -/
lemma hunkLines_eq (B M : List String) :
    hunkLines B M = (List.range (max B.length M.length)).flatMap
      (fun k => emitAt (lineAt B k) (lineAt M k)) := by
  rw [hunkLines, diffLoop_eq, List.range_eq_range']

/-- One loop iteration, phrased as the three "exactly when" conditions
of the specification. -/
lemma emitAt_characterization (b m : String) :
    emitAt b m =
      (if b ≠ m ∧ b ≠ "" then ["-" ++ b] else []) ++
      (if b ≠ m ∧ m ≠ "" then ["+" ++ m] else []) ++
      (if b = m then [" " ++ b] else []) := by
  by_cases hbm : b = m
  · simp [emitAt, hbm]
  · by_cases hb : b = ""
    · subst hb
      by_cases hm : m = ""
      · exact absurd hm.symm hbm
      · simp [emitAt, hbm, hm]
    · by_cases hm : m = ""
      · subst hm
        simp [emitAt, hbm, hb]
      · simp [emitAt, hbm, hb, hm]

/-- The number of lines one differing index contributes. -/
lemma emitAt_length (b m : String) (h : b ≠ m) :
    (emitAt b m).length = if b ≠ "" ∧ m ≠ "" then 2 else 1 := by
  by_cases hb : b = ""
  · subst hb
    by_cases hm : m = ""
    · exact absurd hm.symm h
    · simp [emitAt, h, hm]
  · by_cases hm : m = ""
    · subst hm
      simp [emitAt, h, hb]
    · simp [emitAt, h, hb, hm]

/-- Sum over `range n` of an index function that is `1` everywhere. -/
lemma sum_map_ones (g : Nat → Nat) :
    ∀ n, (∀ i, i < n → g i = 1) → ((List.range n).map g).sum = n := by
  intro n
  induction n with
  | zero => intro _; rfl
  | succ k ih =>
    intro h
    rw [List.range_succ, List.map_append, List.sum_append,
      ih (fun i hi => h i (Nat.lt_succ_of_lt hi))]
    simp [h k (Nat.lt_succ_self k)]

/-- Sum over `range n` of an index function that is `1` everywhere
except at one index `j`. -/
lemma sum_map_one_exception (g : Nat → Nat) :
    ∀ n j, j < n → (∀ i, i < n → i ≠ j → g i = 1) →
      ((List.range n).map g).sum = (n - 1) + g j := by
  intro n
  induction n with
  | zero => intro j hj _; exact absurd hj (Nat.not_lt_zero j)
  | succ k ih =>
    intro j hj h
    rw [List.range_succ, List.map_append, List.sum_append]
    by_cases hjk : j = k
    · subst hjk
      rw [sum_map_ones g j (fun i hi => h i (Nat.lt_succ_of_lt hi) (Nat.ne_of_lt hi))]
      simp
    · have hjk2 : j < k := Nat.lt_of_le_of_ne (Nat.lt_succ_iff.mp hj) hjk
      have hk : g k = 1 := h k (Nat.lt_succ_self k) (fun e => hjk e.symm)
      rw [ih j hjk2 (fun i hi hij => h i (Nat.lt_succ_of_lt hi) hij)]
      simp [hk]
      omega

/-- Hunk length when the two line lists differ at exactly one index of
the enumerated interval. -/
lemma hunkLines_length_single_diff (B M : List String) (j : Nat)
    (hj : j < max B.length M.length)
    (hagree : ∀ i, i < max B.length M.length → i ≠ j → lineAt B i = lineAt M i)
    (hdiff : lineAt B j ≠ lineAt M j) :
    (hunkLines B M).length =
      if lineAt B j ≠ "" ∧ lineAt M j ≠ "" then max B.length M.length + 1
      else max B.length M.length := by
  have hsum := sum_map_one_exception
    (fun k => (emitAt (lineAt B k) (lineAt M k)).length)
    (max B.length M.length) j hj
    (fun i hi hij => by
      show (emitAt (lineAt B i) (lineAt M i)).length = 1
      rw [hagree i hi hij]; simp [emitAt])
  rw [hunkLines_eq, List.length_flatMap]
  simp only [Function.comp_def]
  rw [hsum]
  show max B.length M.length - 1 + (emitAt (lineAt B j) (lineAt M j)).length = _
  rw [emitAt_length _ _ hdiff]
  by_cases hbm : lineAt B j ≠ "" ∧ lineAt M j ≠ "" <;> simp [hbm] <;> omega

end MPP

namespace MPP

/-- C1 (code_bug evaluation): the claim asserts the decode∘encode
round-trip for plus-free names and versions, every sequence in 0..999
and every description.  The encoder is faithful, but the greedy
`listPatches` regex reparses every sequenced filename: group 1 (`.+`)
grabs everything up to the *last* `+`, so
`foo+1.2.3+007+fix-a.patch` decodes to packageName `foo+1.2.3+007`,
version `fix-a`, no sequence — not `(foo, 1.2.3, 7, fix-a)`.  Only the
no-sequence case round-trips. -/
theorem C1_roundtrip_failure_eval :
    decodePatchName (generatePatchFileName "foo" "1.2.3" (some 7) (some "fix-a")) =
      some ⟨"foo+1.2.3+007", "fix-a", none, none⟩ ∧
    decodePatchName (generatePatchFileName "foo" "1.2.3" (some 7) none) =
      some ⟨"foo+1.2.3", "007", none, none⟩ ∧
    decodePatchName (generatePatchFileName "foo" "1.2.3" none none) =
      some ⟨"foo", "1.2.3", none, none⟩ ∧
    (some ⟨"foo+1.2.3+007", "fix-a", none, none⟩ : Option ParsedPatch) ≠
      some ⟨"foo", "1.2.3", some 7, some "fix-a"⟩ :=
  ⟨by decide, by decide, by decide, by decide⟩

/-- C4 (code_bug evaluation): the claim asserts `listPatches` groups by
dependency name, then ascending sequence.  On the well-formed catalog
`bar+1.0.0.patch`, `foo+2.0.0+001+fix-a.patch`,
`foo+1.0.0+002+fix-b.patch` the greedy regex parses the sequenced names
as packageName `foo+2.0.0+001` / `foo+1.0.0+002` with *no* sequence
field, so the comparator orders the seq-002 artifact before the seq-001
artifact and never consults sequence numbers. -/
theorem C4_catalog_order_eval :
    (listPatches ["bar+1.0.0.patch", "foo+2.0.0+001+fix-a.patch",
        "foo+1.0.0+002+fix-b.patch"]).map (fun e => e.name) =
      ["bar+1.0.0.patch", "foo+1.0.0+002+fix-b.patch",
       "foo+2.0.0+001+fix-a.patch"] ∧
    (listPatches ["bar+1.0.0.patch", "foo+2.0.0+001+fix-a.patch",
        "foo+1.0.0+002+fix-b.patch"]).map (fun e => e.sequence) =
      [none, none, none] ∧
    ["bar+1.0.0.patch", "foo+1.0.0+002+fix-b.patch",
     "foo+2.0.0+001+fix-a.patch"] ≠
      ["bar+1.0.0.patch", "foo+2.0.0+001+fix-a.patch",
       "foo+1.0.0+002+fix-b.patch"] :=
  ⟨by decide, by decide, by decide⟩

/-- C2 counterexample: the claim asserts `applyPatches` attempts the
seq-001 artifact before the seq-002 artifact in *every* directory
containing both.  The apply loop iterates the unsorted `glob`
enumeration, so when the filesystem enumerates the 002 artifact first,
it is attempted first. -/
theorem C2_apply_order_counterexample :
    applyAttemptOrder ["foo+2.0.0+002+fix-b.patch", "foo+2.0.0+001+fix-a.patch"] =
      ["foo+2.0.0+002+fix-b.patch", "foo+2.0.0+001+fix-a.patch"] ∧
    ["foo+2.0.0+002+fix-b.patch", "foo+2.0.0+001+fix-a.patch"] ≠
      ["foo+2.0.0+001+fix-a.patch", "foo+2.0.0+002+fix-b.patch"] :=
  ⟨by decide, by decide⟩

/-- C2 (amended): `reversePatches` attempts the patch files in exactly
the reverse of the order `applyPatches` attempts them — the unsorted
directory enumeration order, not the sorted catalog order — and the
batch loops consume exactly those orders; in particular, when the
enumeration yields the 001 artifact before the 002 artifact, apply
attempts 001 first and reverse attempts 002 first. -/
theorem C2_reverse_attempts_exact_reverse_of_apply :
    (∀ listing : List String,
      reverseAttemptOrder listing = (applyAttemptOrder listing).reverse) ∧
    (∀ (listing : List String) (ok : String → Bool) (errText : String → String),
      (applyPatches listing ok errText).patchesApplied =
        (applyAttemptOrder listing).filter ok ∧
      (reversePatches listing ok errText).patchesApplied =
        (reverseAttemptOrder listing).filter ok) ∧
    applyAttemptOrder ["foo+2.0.0+001+fix-a.patch", "foo+2.0.0+002+fix-b.patch"] =
      ["foo+2.0.0+001+fix-a.patch", "foo+2.0.0+002+fix-b.patch"] ∧
    reverseAttemptOrder ["foo+2.0.0+001+fix-a.patch", "foo+2.0.0+002+fix-b.patch"] =
      ["foo+2.0.0+002+fix-b.patch", "foo+2.0.0+001+fix-a.patch"] := by
  refine ⟨fun listing => rfl, fun listing ok errText => ⟨?_, ?_⟩, by decide, by decide⟩
  · by_cases hp : (getPatchFiles listing).isEmpty
    · have : getPatchFiles listing = [] := List.isEmpty_iff.mp hp
      simp [applyPatches, applyAttemptOrder, hp, this]
    · simp [applyPatches, applyAttemptOrder, hp, attemptLoop_eq]
  · by_cases hp : (getPatchFiles listing).isEmpty
    · have : getPatchFiles listing = [] := List.isEmpty_iff.mp hp
      simp [reversePatches, reverseAttemptOrder, hp, this]
    · simp [reversePatches, reverseAttemptOrder, hp, attemptLoop_eq]

/-- C7: an artifact whose body contains both placeholder sentinels is
classified as a manual patch: `applyPatch` returns the skipped-manual
outcome with the dependency tree untouched, and a second application is
identical — idempotent, mutation-free, and not an error. -/
theorem C7_manual_patch_skip_idempotent (σ : Type)
    (customApply : String → σ → σ) (gitApply gitApplyReject : String → σ → Option σ)
    (content : String) (st : σ) (h : isManualPatch content = true) :
    applyPatch customApply gitApply gitApplyReject content st = (.skippedManual, st) ∧
    applyPatch customApply gitApply gitApplyReject content
      (applyPatch customApply gitApply gitApplyReject content st).2 =
      (.skippedManual, st) := by
  simp [applyPatch, h]

/-- C7 witness: a concrete placeholder body on a concrete tree state. -/
theorem C7_witness :
    applyPatch (fun (_ : String) (n : Nat) => n + 1) (fun _ _ => none)
      (fun _ _ => none)
      "# Manual patch for left-pad@1.3.0\n# Created by modern-patch-package\n# placeholder"
      0 = (.skippedManual, 0) :=
  (C7_manual_patch_skip_idempotent Nat (fun _ n => n + 1) (fun _ _ => none)
    (fun _ _ => none)
    "# Manual patch for left-pad@1.3.0\n# Created by modern-patch-package\n# placeholder"
    0 (by decide)).1

/-- C9 counterexample: the claim asserts that with no probe path
existing and a failing `yarn info`, resolution still returns the plain
`node_modules` path.  In fact the fallback re-verifies existence and
returns not-found. -/
theorem C9_yarn_fallback_counterexample :
    getPackagePath ⟨.yarn, "3.6.4", "yarn.lock", true⟩ ⟨fun _ => false, none⟩
      "/app" "left-pad" = none ∧
    (none : Option String) ≠ some (pjoin (pjoin "/app" "node_modules") "left-pad") :=
  ⟨by decide, by decide⟩

/-- C9 (amended): for a yarn ≥ 2 identity, when `.yarn/cache` and
`.yarn/unplugged` are absent and the `yarn info` query throws, the
resolver falls back to the plain `node_modules/<name>` path only after
re-verifying that it exists, and returns not-found otherwise. -/
theorem C9_yarn_fallback_reverifies_existence (pm : PackageManager)
    (fs : ResolveFs) (cwd packageName : String)
    (hyarn : pm.name = .yarn) (hv : versionIsClassic pm.version = false)
    (hcache : fs.present (pjoin (pjoin (pjoin cwd ".yarn") "cache") packageName) = false)
    (hunpl : fs.present (pjoin (pjoin (pjoin cwd ".yarn") "unplugged") packageName) = false)
    (hinfo : fs.yarnInfo = none) :
    getPackagePath pm fs cwd packageName =
      (if fs.present (pjoin (pjoin cwd "node_modules") packageName) then
        some (pjoin (pjoin cwd "node_modules") packageName)
      else none) := by
  by_cases hnm : fs.present (pjoin (pjoin cwd "node_modules") packageName) <;>
    simp [getPackagePath, hyarn, hv, hcache, hunpl, hinfo, hnm]

/-- C9 witness: a concrete yarn-3 identity where only the plain
`node_modules` path exists and the query throws. -/
theorem C9_witness :
    getPackagePath ⟨.yarn, "3.6.4", "yarn.lock", true⟩
      ⟨fun p => p = "/app/node_modules/left-pad", none⟩ "/app" "left-pad" =
      some "/app/node_modules/left-pad" :=
  (C9_yarn_fallback_reverifies_existence ⟨.yarn, "3.6.4", "yarn.lock", true⟩
    ⟨fun p => p = "/app/node_modules/left-pad", none⟩ "/app" "left-pad"
    rfl (by decide) (by decide) (by decide) rfl).trans (by decide)

/-- C10 counterexample: the claim asserts a `+001` sequence component
whenever the append option is set; setting it to the empty string is
falsy in JS, so the generated name has no sequence component at all. -/
theorem C10_empty_append_counterexample :
    createPatchFileChoice "foo" "1.0.0" (some "") = "foo+1.0.0.patch" ∧
    containsStr (createPatchFileChoice "foo" "1.0.0" (some "")) "+001" = false :=
  ⟨by decide, by decide⟩

/-- C10 (amended): the created filename never derives its sequence from
existing patches — it carries sequence exactly 001 with the given
description whenever the append option is set to a non-empty
description, and no sequence component when append is unset or set to
the empty string (which JS truthiness treats as unset). -/
theorem C10_append_always_sequence_001 (name version d : String) :
    (d ≠ "" → createPatchFileChoice name version (some d) =
      name ++ "+" ++ version ++ "+" ++ "001" ++ "+" ++ d ++ ".patch") ∧
    createPatchFileChoice name version none = name ++ "+" ++ version ++ ".patch" ∧
    createPatchFileChoice name version (some "") =
      name ++ "+" ++ version ++ ".patch" := by
  refine ⟨fun hd => ?_, rfl,
    by simp [createPatchFileChoice, createSeqArg, generatePatchFileName]⟩
  simp [createPatchFileChoice, createSeqArg, generatePatchFileName, hd,
    (by decide : pad3 1 = "001")]

/-- C10 witness: a concrete append description. -/
theorem C10_witness :
    createPatchFileChoice "foo" "1.0.0" (some "fix") = "foo+1.0.0+001+fix.patch" :=
  ((C10_append_always_sequence_001 "foo" "1.0.0" "fix").1 (by decide)).trans
    (by decide)

/-- C3 counterexample: with the dependency unresolvable, `createPatch`
returns a failed result with a non-empty error list and writes no patch
file — it does not degrade to a placeholder. -/
theorem C3_resolution_failure_counterexample :
    (createPatch ⟨none, none, false, false, "", false, "", none, "T"⟩
      "patches" none "left-pad").1.success = false ∧
    (createPatch ⟨none, none, false, false, "", false, "", none, "T"⟩
      "patches" none "left-pad").2 = [] ∧
    (createPatch ⟨none, none, false, false, "", false, "", none, "T"⟩
      "patches" none "left-pad").1.errors ≠ [] :=
  ⟨by decide, by decide, by decide⟩

/-- C3 (amended): a resolution failure — the package directory or its
`package.json` manifest not found — aborts `createPatch` with an error
result (`success = false`, an itemized error, nothing written); only
failures after successful resolution (no git baseline and a failed or
empty registry diff) are absorbed and degrade to writing a placeholder
artifact while still reporting success. -/
theorem C3_resolution_aborts_but_download_degrades (env : CreateEnv)
    (patchDir : String) (append : Option String) (packageName : String) :
    (env.packagePath = none →
      createPatch env patchDir append packageName =
        ({ success := false, patchesCreated := [], patchesApplied := [],
           errors := ["Package " ++ packageName ++ " not found in node_modules"] },
         [])) ∧
    (∀ p, env.packagePath = some p → env.packageInfo = none →
      createPatch env patchDir append packageName =
        ({ success := false, patchesCreated := [], patchesApplied := [],
           errors := ["Could not read package.json for " ++ packageName] },
         [])) ∧
    (∀ p info, env.packagePath = some p → env.packageInfo = some info →
      env.isGitRepo = false → env.registryPatch = none →
      (createPatch env patchDir append packageName).1.success = true ∧
      (createPatch env patchDir append packageName).2 =
        [(patchDir ++ "/" ++ createPatchFileChoice info.name info.version append,
          placeholderText (basename p)
            (if info.version ≠ "" then info.version else "unknown") p env.now)]) := by
  refine ⟨fun h => ?_, fun p hp hi => ?_, fun p info hp hi hg hr => ?_⟩
  · simp [createPatch, h]
  · simp [createPatch, hp, hi]
  · constructor <;> simp [createPatch, createManualPatch, hp, hi, hg, hr]

/-- C3 witness: a failed resolution aborts; a resolved package with no
git repository and no registry diff still succeeds via the placeholder. -/
theorem C3_witness :
    createPatch ⟨none, none, false, false, "", false, "", none, "T"⟩
      "patches" none "lodash" =
      ({ success := false, patchesCreated := [], patchesApplied := [],
         errors := ["Package lodash not found in node_modules"] }, []) ∧
    (createPatch ⟨some "node_modules/lodash",
        some ⟨"lodash", "1.0.0", "node_modules/lodash"⟩,
        false, false, "", false, "", none, "T"⟩ "patches" none "lodash").1.success =
      true := by
  constructor
  · exact (C3_resolution_aborts_but_download_degrades
      ⟨none, none, false, false, "", false, "", none, "T"⟩ "patches" none
      "lodash").1 rfl
  · exact ((C3_resolution_aborts_but_download_degrades
      ⟨some "node_modules/lodash", some ⟨"lodash", "1.0.0", "node_modules/lodash"⟩,
        false, false, "", false, "", none, "T"⟩ "patches" none "lodash").2.2
      "node_modules/lodash" ⟨"lodash", "1.0.0", "node_modules/lodash"⟩
      rfl rfl rfl rfl).1

/-- C5: the hunk construction is positional — the emitted hunk is
exactly the concatenation, over line index `i` from `0` to
`max(|B|, |M|) − 1` with a missing index read as the empty string, of:
a removed line exactly when `B[i]` and `M[i]` differ and `B[i]` is
non-empty, then an added line exactly when they differ and `M[i]` is
non-empty, and a context line exactly when they are equal. -/
theorem C5_hunk_construction_positional (B M : List String) :
    hunkLines B M = (List.range (max B.length M.length)).flatMap (fun i =>
      (if lineAt B i ≠ lineAt M i ∧ lineAt B i ≠ "" then ["-" ++ lineAt B i] else []) ++
      (if lineAt B i ≠ lineAt M i ∧ lineAt M i ≠ "" then ["+" ++ lineAt M i] else []) ++
      (if lineAt B i = lineAt M i then [" " ++ lineAt B i] else [])) := by
  rw [hunkLines_eq]
  simp only [emitAt_characterization]

/-- C6 counterexample: two trees differing in exactly one file by one
changed line (`"a"` vs `"b"`) produce a structural-diff artifact, but
the hunk has 2 lines (one removed, one added) while the longer file
length is 1 — the claimed equality fails for an in-place change. -/
theorem C6_hunk_count_counterexample :
    (registryDiff "p" [("index.js", "a")] [("index.js", "b")]).isSome = true ∧
    (hunkLines ["a"] ["b"]).length = 2 ∧
    (hunkLines ["a"] ["b"]).length ≠
      max (List.length ["a"]) (List.length (["b"] : List String)) :=
  ⟨by decide, by decide, by decide⟩

/-- C6 (amended): byte-identical common files yield no-difference (the
diff step returns failure and the caller falls back to the
placeholder); and for two files differing at exactly one positional
index, the hunk line count is the longer file length when the differing
line is present on only one side (a pure trailing addition or removal),
and exceeds it by one when a non-empty line was changed in place. -/
theorem C6_nodiff_and_single_line_hunk_count :
    (∀ (pkg : String) (orig modified : List (String × String)),
      (∀ f ∈ commonFiles orig modified,
        lookupContent orig f = lookupContent modified f) →
      registryDiff pkg orig modified = none) ∧
    (∀ (B M : List String) (j : Nat), j < max B.length M.length →
      (∀ i, i < max B.length M.length → i ≠ j → lineAt B i = lineAt M i) →
      lineAt B j ≠ lineAt M j →
      (hunkLines B M).length =
        if lineAt B j ≠ "" ∧ lineAt M j ≠ "" then max B.length M.length + 1
        else max B.length M.length) := by
  constructor
  · intro pkg orig modified h
    have hfil : (commonFiles orig modified).filter
        (fun f => lookupContent orig f ≠ lookupContent modified f) = [] := by
      rw [List.filter_eq_nil_iff]
      intro f hf
      simp [h f hf]
    simp [registryDiff, hfil]
    exact h
  · exact fun B M j hj hagree hdiff =>
      hunkLines_length_single_diff B M j hj hagree hdiff

/-- C6 witness: identical trees yield no-difference; appending one
non-empty line gives hunk length `max = 2`; changing one line in place
gives `max + 1 = 3`. -/
theorem C6_witness :
    registryDiff "p" [("f", "x")] [("f", "x")] = none ∧
    (hunkLines ["a"] ["a", "b"]).length = 2 ∧
    (hunkLines ["a", "b"] ["a", "c"]).length = 3 := by
  refine ⟨?_, ?_, ?_⟩
  · exact C6_nodiff_and_single_line_hunk_count.1 "p" [("f", "x")] [("f", "x")]
      (by decide)
  · exact (C6_nodiff_and_single_line_hunk_count.2 ["a"] ["a", "b"] 1
      (by decide) (by decide) (by decide)).trans (by decide)
  · exact (C6_nodiff_and_single_line_hunk_count.2 ["a", "b"] ["a", "c"] 1
      (by decide) (by decide) (by decide)).trans (by decide)

/-- C8: batch partial-failure semantics — `applyPatches` and
`reversePatches` attempt every enumerated artifact even when earlier
ones fail (the successes and the collected errors partition the whole
catalog, in attempt order), and the returned result has
`success = true` exactly when the collected error list is empty. -/
theorem C8_batch_partial_failure_semantics (listing : List String)
    (ok : String → Bool) (errText : String → String) :
    ((applyPatches listing ok errText).patchesApplied =
        (getPatchFiles listing).filter ok ∧
      (applyPatches listing ok errText).errors =
        ((getPatchFiles listing).filter (fun f => !ok f)).map
          (fun f => "Failed to apply patch " ++ f ++ ": " ++ errText f) ∧
      (applyPatches listing ok errText).patchesApplied.length +
        (applyPatches listing ok errText).errors.length =
        (getPatchFiles listing).length ∧
      ((applyPatches listing ok errText).success = true ↔
        (applyPatches listing ok errText).errors = [])) ∧
    ((reversePatches listing ok errText).patchesApplied =
        ((getPatchFiles listing).reverse).filter ok ∧
      (reversePatches listing ok errText).errors =
        (((getPatchFiles listing).reverse).filter (fun f => !ok f)).map
          (fun f => "Failed to reverse patch " ++ f ++ ": " ++ errText f) ∧
      (reversePatches listing ok errText).patchesApplied.length +
        (reversePatches listing ok errText).errors.length =
        (getPatchFiles listing).length ∧
      ((reversePatches listing ok errText).success = true ↔
        (reversePatches listing ok errText).errors = [])) := by
  constructor
  · by_cases hp : (getPatchFiles listing).isEmpty
    · have he : getPatchFiles listing = [] := List.isEmpty_iff.mp hp
      simp [applyPatches, hp, he]
    · have h1 : (applyPatches listing ok errText).patchesApplied =
          (getPatchFiles listing).filter ok := by
        simp [applyPatches, hp, attemptLoop_eq]
      have h2 : (applyPatches listing ok errText).errors =
          ((getPatchFiles listing).filter (fun f => !ok f)).map
            (fun f => "Failed to apply patch " ++ f ++ ": " ++ errText f) := by
        simp [applyPatches, hp, attemptLoop_eq]
      refine ⟨h1, h2, ?_, ?_⟩
      · rw [h1, h2, List.length_map]
        exact length_filter_partition ok (getPatchFiles listing)
      · simp [applyPatches, hp, attemptLoop_eq, List.isEmpty_iff]
  · by_cases hp : (getPatchFiles listing).isEmpty
    · have he : getPatchFiles listing = [] := List.isEmpty_iff.mp hp
      simp [reversePatches, hp, he]
    · have h1 : (reversePatches listing ok errText).patchesApplied =
          ((getPatchFiles listing).reverse).filter ok := by
        simp [reversePatches, hp, attemptLoop_eq]
      have h2 : (reversePatches listing ok errText).errors =
          (((getPatchFiles listing).reverse).filter (fun f => !ok f)).map
            (fun f => "Failed to reverse patch " ++ f ++ ": " ++ errText f) := by
        simp [reversePatches, hp, attemptLoop_eq]
      refine ⟨h1, h2, ?_, ?_⟩
      · rw [h1, h2, List.length_map]
        have := length_filter_partition ok ((getPatchFiles listing).reverse)
        simpa using this
      · simp [reversePatches, hp, attemptLoop_eq, List.isEmpty_iff]

end MPP

